import Mathlib

/-!
Verification development for the roller-coaster track geometry and ride
dynamics engine.  The definitions below are shallow embeddings of the
TypeScript source (three.js vector math, the hybrid spline/loop track
sampler, the section-table builder, the zustand store actions, and the
per-frame ride integrator).  All machine `number` arithmetic is modelled
over the reals `ℝ`; `Math.sqrt`, `Math.sin`, `Math.cos`, `Math.acos` become
`Real.sqrt`, `Real.sin`, `Real.cos`, `Real.arccos`.
-/

open scoped Classical

noncomputable section

/-! ### three.js `Vector3` and `Quaternion` (the operations the source uses) -/

/-- A 3-D vector, mirroring `THREE.Vector3` components. -/
structure Vec3 where
  x : ℝ
  y : ℝ
  z : ℝ

namespace Vec3

/-- Mirrors `v.add(w)`. -/
def add (v w : Vec3) : Vec3 := ⟨v.x + w.x, v.y + w.y, v.z + w.z⟩

/-- Mirrors `v.sub(w)`. -/
def sub (v w : Vec3) : Vec3 := ⟨v.x - w.x, v.y - w.y, v.z - w.z⟩

/-- Mirrors `v.multiplyScalar(a)`. -/
def smul (v : Vec3) (a : ℝ) : Vec3 := ⟨v.x * a, v.y * a, v.z * a⟩

/-- Mirrors `v.addScaledVector(w, a)`. -/
def addScaled (v w : Vec3) (a : ℝ) : Vec3 := v.add (w.smul a)

/-- Mirrors `v.dot(w)`. -/
def dot (v w : Vec3) : ℝ := v.x * w.x + v.y * w.y + v.z * w.z

/-- Mirrors `v.cross(w)` and `new THREE.Vector3().crossVectors(v, w)`. -/
def cross (v w : Vec3) : Vec3 :=
  ⟨v.y * w.z - v.z * w.y, v.z * w.x - v.x * w.z, v.x * w.y - v.y * w.x⟩

/-- Mirrors `v.lengthSq()`. -/
def lengthSq (v : Vec3) : ℝ := v.x * v.x + v.y * v.y + v.z * v.z

/-- Mirrors `v.length()`. -/
def length (v : Vec3) : ℝ := Real.sqrt v.lengthSq

/-- Mirrors `v.normalize()`: three.js divides by `this.length() || 1`, so the zero
vector is left unchanged rather than raising an error. -/
def normalize (v : Vec3) : Vec3 :=
  v.smul (1 / (if v.length = 0 then 1 else v.length))

/-- Mirrors `v.distanceTo(w)`. -/
def distanceTo (v w : Vec3) : ℝ := (v.sub w).length

/-- Mirrors `v.negate()` (used to state the loop inversion property). -/
def neg (v : Vec3) : Vec3 := ⟨-v.x, -v.y, -v.z⟩

/-- The zero vector. -/
def zero : Vec3 := ⟨0, 0, 0⟩

end Vec3

/-- A quaternion, mirroring `THREE.Quaternion` components. -/
structure Quat where
  x : ℝ
  y : ℝ
  z : ℝ
  w : ℝ

/-- Mirrors `THREE.Quaternion().setFromAxisAngle(axis, angle)` (axis assumed normalized
by the caller, as in three.js). -/
def Quat.setFromAxisAngle (axis : Vec3) (angle : ℝ) : Quat :=
  let s := Real.sin (angle / 2)
  ⟨axis.x * s, axis.y * s, axis.z * s, Real.cos (angle / 2)⟩

/-- Mirrors `v.applyQuaternion(q)`, three.js formula `v + q.w*t + q.xyz × t` with
`t = 2 (q.xyz × v)`. -/
def Vec3.applyQuaternion (v : Vec3) (q : Quat) : Vec3 :=
  let tx := 2 * (q.y * v.z - q.z * v.y)
  let ty := 2 * (q.z * v.x - q.x * v.z)
  let tz := 2 * (q.x * v.y - q.y * v.x)
  ⟨v.x + q.w * tx + (q.y * tz - q.z * ty),
   v.y + q.w * ty + (q.z * tx - q.x * tz),
   v.z + q.w * tz + (q.x * ty - q.y * tx)⟩

/-- Mirrors `v.applyAxisAngle(axis, angle)`, that is `applyQuaternion(setFromAxisAngle(...))`. -/
def Vec3.applyAxisAngle (v axis : Vec3) (angle : ℝ) : Vec3 :=
  v.applyQuaternion (Quat.setFromAxisAngle axis angle)

/-! ### The analytic loop sampler (`sampleLoopAnalytically` in
`RideCamera`/`CoasterCar`, identical in both files) -/

/-- The entry frame of a loop section (`LoopFrame` interface). -/
structure LoopFrame where
  entryPos : Vec3
  forward : Vec3
  up : Vec3
  right : Vec3
  radius : ℝ

/-- A `{point, tangent, up}` sample of the analytic loop. -/
structure LoopSample where
  point : Vec3
  tangent : Vec3
  up : Vec3

/-- Mirrors `sampleLoopAnalytically(frame, theta)`: circle in the plane spanned by
`forward` and `up`, with the rider's up vector rotating by `-theta` about the
loop axis (so it is inverted at the top). -/
def sampleLoopAnalytically (frame : LoopFrame) (theta : ℝ) : LoopSample :=
  let point : Vec3 :=
    ⟨frame.entryPos.x + frame.forward.x * Real.sin theta * frame.radius
        + frame.up.x * (1 - Real.cos theta) * frame.radius,
     frame.entryPos.y + frame.forward.y * Real.sin theta * frame.radius
        + frame.up.y * (1 - Real.cos theta) * frame.radius,
     frame.entryPos.z + frame.forward.z * Real.sin theta * frame.radius
        + frame.up.z * (1 - Real.cos theta) * frame.radius⟩
  let tangent :=
    ((Vec3.zero.addScaled frame.forward (Real.cos theta)).addScaled
        frame.up (Real.sin theta)).normalize
  let inwardUp :=
    ((Vec3.zero.addScaled frame.forward (-Real.sin theta)).addScaled
        frame.up (Real.cos theta)).normalize
  ⟨point, tangent, inwardUp⟩

/-! ### The eased vertical-loop parameterization (`Track.tsx`,
`sampleVerticalLoopAnalytically`) -/

/-- The eased loop schedule `theta = twoPi * (t - Math.sin(twoPi * t) / twoPi)`. -/
def thetaEased (t : ℝ) : ℝ :=
  (Real.pi * 2) * (t - Real.sin ((Real.pi * 2) * t) / (Real.pi * 2))

/-- Its angular velocity `dThetaDt = twoPi * (1 - Math.cos(twoPi * t))`. -/
def dThetaDt (t : ℝ) : ℝ :=
  (Real.pi * 2) * (1 - Real.cos ((Real.pi * 2) * t))

/-- Entry frame of a vertical loop with corkscrew offset
(`BarrelRollFrame` in `Track.tsx`). -/
structure BarrelRollFrame where
  entryPos : Vec3
  forward : Vec3
  up : Vec3
  right : Vec3
  radius : ℝ
  pitch : ℝ

/-- A `{point, tangent, up, normal}` sample of the eased vertical loop. -/
structure BarrelRollSample where
  point : Vec3
  tangent : Vec3
  up : Vec3
  normal : Vec3

/-- Mirrors `sampleVerticalLoopAnalytically(frame, t)` from `Track.tsx`. -/
def sampleVerticalLoopAnalytically (frame : BarrelRollFrame) (t : ℝ) :
    BarrelRollSample :=
  let corkscrewOffset := frame.radius * 0.4
  let theta := thetaEased t
  let dTh := dThetaDt t
  let point :=
    ((frame.entryPos.addScaled frame.forward
        (frame.pitch * t + frame.radius * Real.sin theta)).addScaled
      frame.up (frame.radius * (1 - Real.cos theta))).addScaled
      frame.right (corkscrewOffset * Real.sin theta)
  let tangent :=
    (((frame.forward.smul (frame.pitch + frame.radius * Real.cos theta * dTh)).addScaled
        frame.up (frame.radius * Real.sin theta * dTh)).addScaled
        frame.right (corkscrewOffset * Real.cos theta * dTh)).normalize
  let rotatedUp :=
    ((Vec3.zero.addScaled frame.up (Real.cos theta)).addScaled
        frame.forward (-Real.sin theta)).normalize
  ⟨point, tangent, rotatedUp, frame.right⟩

/-! ### The hybrid section table and its sampler
(`TrackSection` / `sampleHybridTrack`, identical in `RideCamera` and
`CoasterCar`; the `RideCamera` variant additionally reports an `inLoop`
flag, which we keep). -/

/-- The section tag `type: "spline" | "loop"`. -/
inductive SectionType where
  | spline
  | loop
deriving DecidableEq

/-- The `TrackSection` record.  Optional TypeScript fields become `Option`. -/
structure TrackSection where
  type : SectionType
  startProgress : ℝ
  endProgress : ℝ
  arcLength : ℝ
  loopFrame : Option LoopFrame
  splineStartT : Option ℝ
  splineEndT : Option ℝ

/-- The fallback section used to model the JS indexing
`sections[sections.length - 1]` (never reached on an empty table because of
the early `null` return). -/
def dummySection : TrackSection := ⟨SectionType.spline, 0, 0, 0, none, none, none⟩

/-- A `{point, tangent, up, inLoop}` sample of the hybrid track. -/
structure HSample where
  point : Vec3
  tangent : Vec3
  up : Vec3
  inLoop : Bool

/-- The local up vector of a spline sample: world up projected orthogonal to
the tangent, falling back to the x-axis when the tangent is near vertical
(the inline block of `sampleHybridTrack`). -/
def splineLocalUp (tangent : Vec3) : Vec3 :=
  let up0 : Vec3 := ⟨0, 1, 0⟩
  let up1 := up0.sub (tangent.smul (up0.dot tangent))
  if up1.lengthSq > 0.001 then up1.normalize
  else
    let e : Vec3 := ⟨1, 0, 0⟩
    (e.sub (tangent.smul (e.dot tangent))).normalize

/-- Section lookup: the first section whose `[start, end)` range contains the
clamped progress, else (JS fallback) the last section of the table. -/
def findSection (p : ℝ) (sections : List TrackSection) : TrackSection :=
  match sections.find? (fun s => decide (s.startProgress ≤ p ∧ p < s.endProgress)) with
  | some s => s
  | none => sections.getLast?.getD dummySection

/-- Dispatch on the located section: analytic loop evaluation for loop
sections with a frame, sub-span spline evaluation when the t-range is
present, `null` otherwise. -/
def sampleSection (p : ℝ) (sec : TrackSection)
    (getPoint getTangent : ℝ → Vec3) : Option HSample :=
  let localT := (p - sec.startProgress) / (sec.endProgress - sec.startProgress)
  if h : sec.type = SectionType.loop ∧ sec.loopFrame.isSome then
    let theta := localT * Real.pi * 2
    let s := sampleLoopAnalytically (sec.loopFrame.get h.2) theta
    some ⟨s.point, s.tangent, s.up, true⟩
  else
    match sec.splineStartT, sec.splineEndT with
    | some a, some b =>
        let splineT := a + localT * (b - a)
        let point := getPoint splineT
        let tangent := (getTangent splineT).normalize
        some ⟨point, tangent, splineLocalUp tangent, false⟩
    | _, _ => none

/-- The body of `sampleHybridTrack` after the progress clamp. -/
def sampleHybridTrackAux (p : ℝ) (sections : List TrackSection)
    (getPoint getTangent : ℝ → Vec3) : Option HSample :=
  sampleSection p (findSection p sections) getPoint getTangent

/-- Mirrors `sampleHybridTrack(progress, sections, spline)`.  The spline object is
abstracted by its two methods `getPoint` and `getTangent` (the only ones the
function calls). -/
def sampleHybridTrack (progress : ℝ) (sections : List TrackSection)
    (getPoint getTangent : ℝ → Vec3) : Option HSample :=
  if sections = [] then none
  else sampleHybridTrackAux (max 0 (min progress 0.9999)) sections getPoint getTangent

/-- Mirrors `computeLoopFrame(spline, splineT, prevTangent, prevUp, radius)`: builds
the orthonormal entry frame of a loop section by rotating the transported up
onto the new forward direction and re-orthogonalizing. -/
def computeLoopFrame (getPoint getTangent : ℝ → Vec3) (splineT : ℝ)
    (prevTangent prevUp : Vec3) (radius : ℝ) : LoopFrame :=
  let entryPos := getPoint splineT
  let forward := (getTangent splineT).normalize
  let d := min 1 (max (-1) (prevTangent.dot forward))
  let entryUp0 :=
    if d > 0.9999 then prevUp
    else if d < -0.9999 then prevUp
    else
      let axis := prevTangent.cross forward
      if axis.length > 0.0001 then
        prevUp.applyQuaternion (Quat.setFromAxisAngle axis.normalize (Real.arccos d))
      else prevUp
  let upDot := entryUp0.dot forward
  let entryUp1 := entryUp0.sub (forward.smul upDot)
  let entryUp :=
    if entryUp1.length > 0.001 then entryUp1.normalize
    else
      let w : Vec3 := ⟨0, 1, 0⟩
      (w.sub (forward.smul (w.dot forward))).normalize
  let right := (forward.cross entryUp).normalize
  ⟨entryPos, forward, entryUp, right, radius⟩

/-! ### `THREE.CatmullRomCurve3` (uniform "catmullrom" type, as built by
`getTrackCurve(trackPoints, isLooped)` with tension 0.5) -/

/-- One coordinate of the cubic segment: three.js `CubicPoly.initCatmullRom`
followed by `calc(t)`. -/
def catmullCalc (x0 x1 x2 x3 tension t : ℝ) : ℝ :=
  let t0 := tension * (x2 - x0)
  let t1 := tension * (x3 - x1)
  let c0 := x1
  let c1 := t0
  let c2 := -3 * x1 + 3 * x2 - 2 * t0 - t1
  let c3 := 2 * x1 - 2 * x2 + t0 + t1
  c0 + c1 * t + c2 * t * t + c3 * t * t * t

/-- Mirrors `CatmullRomCurve3.getPoint(t)`.  JS array indexing `points[i % l]` is
modelled with `Int.emod` (nonnegative for the guarded indices the source
reaches) and `List.getD`. -/
def catmullRomPoint (points : List Vec3) (closed : Bool) (tension : ℝ)
    (t : ℝ) : Vec3 :=
  let l : ℤ := points.length
  let p : ℝ := ((points.length : ℝ) - (if closed then 0 else 1)) * t
  let ip0 : ℤ := Int.floor p
  let w0 : ℝ := p - ip0
  let ip : ℤ :=
    if closed then
      (if 0 < ip0 then ip0
       else ip0 + (Int.floor (((|ip0| : ℤ) : ℝ) / (points.length : ℝ)) + 1) * l)
    else if w0 = 0 ∧ ip0 = l - 1 then l - 2
    else ip0
  let w : ℝ :=
    if closed then w0
    else if w0 = 0 ∧ ip0 = l - 1 then 1
    else w0
  let idx : ℤ → Vec3 := fun i => points.getD (Int.toNat (i % l)) Vec3.zero
  let p0 :=
    if closed ∨ 0 < ip then idx (ip - 1)
    else ((points.getD 0 Vec3.zero).sub (points.getD 1 Vec3.zero)).add
        (points.getD 0 Vec3.zero)
  let p1 := idx ip
  let p2 := idx (ip + 1)
  let p3 :=
    if closed ∨ ip + 2 < l then idx (ip + 2)
    else ((points.getD (points.length - 1) Vec3.zero).sub
          (points.getD (points.length - 2) Vec3.zero)).add
        (points.getD (points.length - 1) Vec3.zero)
  ⟨catmullCalc p0.x p1.x p2.x p3.x tension w,
   catmullCalc p0.y p1.y p2.y p3.y tension w,
   catmullCalc p0.z p1.z p2.z p3.z tension w⟩

/-- Mirrors `Curve.getTangent(t)`: symmetric finite difference with `delta = 0.0001`,
clamped to `[0, 1]`, normalized. -/
def catmullRomTangent (points : List Vec3) (closed : Bool) (tension : ℝ)
    (t : ℝ) : Vec3 :=
  let delta : ℝ := 0.0001
  let t1 := if t - delta < 0 then 0 else t - delta
  let t2 := if t + delta > 1 then 1 else t + delta
  ((catmullRomPoint points closed tension t2).sub
      (catmullRomPoint points closed tension t1)).normalize

/-! ### The store's data (`useRollerCoaster.tsx`) -/

/-- A control point (`TrackPoint` interface). -/
structure TrackPoint where
  id : String
  position : Vec3
  tilt : ℝ

/-- A registered loop segment (`LoopSegment`, imported by the track/camera
components from the store; its declaration file is not under `src/`, the
fields are those the components read). -/
structure LoopSegment where
  entryPointId : String
  radius : ℝ
  pitch : ℝ

/-! ### The section-table builder (the `useMemo` bodies of `RideCamera` /
`CoasterCar`) -/

/-- The `loopMap.get(point.id)` lookup.  The JS `Map` is populated by
iterating `loopSegments` with `set`, so a later segment with the same
`entryPointId` overwrites an earlier one; hence lookup finds the last match. -/
def loopLookup (segs : List LoopSegment) (pid : String) : Option LoopSegment :=
  segs.reverse.find? (fun s => s.entryPointId == pid)

/-- Chord-sum arc-length estimate of a spline span: `subSamples = 10`. -/
def estimateSegmentLength (getPoint : ℝ → Vec3) (a b : ℝ) : ℝ :=
  ∑ s ∈ Finset.range 10,
    (getPoint (a + ((s : ℝ) / 10) * (b - a))).distanceTo
      (getPoint (a + (((s : ℝ) + 1) / 10) * (b - a)))

/-- The per-segment parallel-transport update of `prevUp` (builder lines
after each spline section push). -/
def transportFrame (prevTangent prevUp endTangent : Vec3) : Vec3 :=
  let d := min 1 (max (-1) (prevTangent.dot endTangent))
  let up1 :=
    if d < 0.9999 ∧ -0.9999 < d then
      let axis := prevTangent.cross endTangent
      if axis.length > 0.0001 then
        prevUp.applyQuaternion (Quat.setFromAxisAngle axis.normalize (Real.arccos d))
      else prevUp
    else prevUp
  let upDot := up1.dot endTangent
  let up2 := up1.sub (endTangent.smul upDot)
  if up2.length > 0.001 then up2.normalize else up2

/-- The initial `prevUp`: world up projected orthogonal to the initial
tangent, x-axis fallback, then normalized. -/
def initialPrevUp (prevTangent : Vec3) : Vec3 :=
  let u0 : Vec3 := ⟨0, 1, 0⟩
  let u1 := u0.sub (prevTangent.smul (u0.dot prevTangent))
  let u2 :=
    if u1.length < 0.01 then
      let e : Vec3 := ⟨1, 0, 0⟩
      e.sub (prevTangent.smul (e.dot prevTangent))
    else u1
  u2.normalize

/-- The mutable state of the builder loop. -/
structure BuildState where
  secs : List TrackSection
  acc : ℝ
  prevTangent : Vec3
  prevUp : Vec3

/-- One iteration of `for (let i = 0; i < numPoints; i++)`: an optional loop
section for a loop-marked point, then (unless at the last point of an open
path) the spline section for the interval `[i, i+1]`, with arc-length
accumulation and frame transport. -/
def buildStep (getPoint getTangent : ℝ → Vec3) (pts : List TrackPoint)
    (loopSegs : List LoopSegment) (isLooped : Bool) (b : BuildState)
    (i : ℕ) : BuildState :=
  let numPoints := pts.length
  let totalSegs : ℕ := if isLooped then numPoints else numPoints - 1
  let pid := (pts.getD i ⟨"", Vec3.zero, 0⟩).id
  let b1 :=
    match loopLookup loopSegs pid with
    | some seg =>
        let splineT := (i : ℝ) / (totalSegs : ℝ)
        let fr := computeLoopFrame getPoint getTangent splineT b.prevTangent b.prevUp seg.radius
        let loopArcLength := 2 * Real.pi * seg.radius
        let exitS := sampleLoopAnalytically fr (Real.pi * 2)
        { secs := b.secs ++
            [⟨SectionType.loop, 0, 0, loopArcLength, some fr, none, none⟩],
          acc := b.acc + loopArcLength,
          prevTangent := exitS.tangent, prevUp := exitS.up }
    | none => b
  if numPoints - 1 ≤ i ∧ isLooped = false then b1
  else
    let splineStartT := (i : ℝ) / (totalSegs : ℝ)
    let splineEndT := ((i : ℝ) + 1) / (totalSegs : ℝ)
    let segmentLength := estimateSegmentLength getPoint splineStartT splineEndT
    let endTangent := (getTangent splineEndT).normalize
    { secs := b1.secs ++
        [⟨SectionType.spline, 0, 0, segmentLength, none,
          some splineStartT, some splineEndT⟩],
      acc := b1.acc + segmentLength,
      prevTangent := endTangent,
      prevUp := transportFrame b1.prevTangent b1.prevUp endTangent }

/-- The raw table and accumulated length before progress normalization. -/
def buildRawSections (getPoint getTangent : ℝ → Vec3) (pts : List TrackPoint)
    (loopSegs : List LoopSegment) (isLooped : Bool) : BuildState :=
  let pt0 := (getTangent 0).normalize
  (List.range pts.length).foldl
    (buildStep getPoint getTangent pts loopSegs isLooped)
    ⟨[], 0, pt0, initialPrevUp pt0⟩

/-- The normalization pass: `startProgress = runningLength / accumulatedLength`,
`endProgress = (runningLength + arcLength) / accumulatedLength`. -/
def normAux (total : ℝ) : List TrackSection → ℝ → List TrackSection
  | [], _ => []
  | s :: rest, run =>
      { s with startProgress := run / total,
               endProgress := (run + s.arcLength) / total }
        :: normAux total rest (run + s.arcLength)

/-- The full section table for the given curve accessors. -/
def buildSections (getPoint getTangent : ℝ → Vec3) (pts : List TrackPoint)
    (loopSegs : List LoopSegment) (isLooped : Bool) : List TrackSection :=
  let raw := buildRawSections getPoint getTangent pts loopSegs isLooped
  normAux raw.acc raw.secs 0

/-- The section table exactly as the `useMemo` computes it from the control
points: empty for fewer than 2 points, otherwise built over the Catmull-Rom
curve of `getTrackCurve(trackPoints, isLooped)` (tension 0.5). -/
def buildSectionsFromPoints (pts : List TrackPoint)
    (loopSegs : List LoopSegment) (isLooped : Bool) : List TrackSection :=
  if pts.length < 2 then []
  else
    buildSections
      (catmullRomPoint (pts.map TrackPoint.position) isLooped 0.5)
      (catmullRomTangent (pts.map TrackPoint.position) isLooped 0.5)
      pts loopSegs isLooped

/-! ### The zustand store (`useRollerCoaster.tsx`, first revision; the second
concatenated revision has the identical `startRide` / `stopRide` and the
identical `findIndex === -1` early return in `createLoopAtPoint`). -/

/-- The editor/ride mode `CoasterMode`. -/
inductive CoasterMode where
  | build
  | ride
  | preview
deriving DecidableEq

/-- The store state.  The module-level `pointCounter` used for point ids is
carried alongside the zustand fields. -/
structure StoreState where
  mode : CoasterMode
  trackPoints : List TrackPoint
  selectedPointId : Option String
  rideProgress : ℝ
  isRiding : Bool
  rideSpeed : ℝ
  isDraggingPoint : Bool
  isAddingPoints : Bool
  isLooped : Bool
  hasChainLift : Bool
  showWoodSupports : Bool
  isNightMode : Bool
  cameraTarget : Option Vec3
  pointCounter : ℕ

/-- Id generation: `point-${++pointCounter}`. -/
def mkPointId (n : ℕ) : String := "point-" ++ toString n

/-- Mirrors `startRide`: refuses (leaves the state untouched) unless at least two
track points exist. -/
def startRide (st : StoreState) : StoreState :=
  if 2 ≤ st.trackPoints.length then
    { st with mode := CoasterMode.ride, isRiding := true, rideProgress := 0 }
  else st

/-- Mirrors `stopRide`. -/
def stopRide (st : StoreState) : StoreState :=
  { st with mode := CoasterMode.build, isRiding := false, rideProgress := 0 }

/-- Mirrors `setRideProgress`. -/
def setRideProgress (p : ℝ) (st : StoreState) : StoreState :=
  { st with rideProgress := p }

/-- Mirrors `createLoopAtPoint(id)` (first store revision): splices a 16-point loop
with lead-in/lead-out after the identified point, shifting all subsequent
points forward; returns the state unchanged when no point has the id. -/
def createLoopAtPoint (id : String) (st : StoreState) : StoreState :=
  match st.trackPoints.findIdx? (fun p => p.id == id) with
  | none => st
  | some pointIndex =>
      let basePoint := st.trackPoints.getD pointIndex ⟨"", Vec3.zero, 0⟩
      let pos := basePoint.position
      let direction :=
        if 0 < pointIndex then
          let prevPoint := st.trackPoints.getD (pointIndex - 1) ⟨"", Vec3.zero, 0⟩
          let d0 := (pos.sub prevPoint.position).normalize
          let d1 : Vec3 := ⟨d0.x, 0, d0.z⟩
          if d1.length < 0.1 then (⟨1, 0, 0⟩ : Vec3) else d1.normalize
        else (⟨1, 0, 0⟩ : Vec3)
      let loopRadius : ℝ := 10
      let numLoopPoints : ℕ := 16
      let leadInDist : ℝ := 5
      let leadOutDist : ℝ := 8
      let totalLoopLength := leadInDist + loopRadius * 2 + leadOutDist
      let c0 := st.pointCounter
      let shiftedPoints := (st.trackPoints.drop (pointIndex + 1)).map fun p =>
        { p with position :=
            ⟨p.position.x + direction.x * totalLoopLength,
             p.position.y,
             p.position.z + direction.z * totalLoopLength⟩ }
      let leadIn : List TrackPoint :=
        [⟨mkPointId (c0 + 1),
          ⟨pos.x + direction.x * 2, pos.y + 1, pos.z + direction.z * 2⟩, 0⟩,
         ⟨mkPointId (c0 + 2),
          ⟨pos.x + direction.x * leadInDist, pos.y + 2,
           pos.z + direction.z * leadInDist⟩, 0⟩]
      let loopCenterForward := leadInDist + loopRadius
      let loopCenterX := pos.x + direction.x * loopCenterForward
      let loopCenterZ := pos.z + direction.z * loopCenterForward
      let loopCenterY := pos.y + loopRadius
      let mainLoop : List TrackPoint :=
        (List.range (numLoopPoints - 1)).map fun j =>
          let i : ℕ := j + 1
          let angle := -Real.pi / 2 + ((i : ℝ) / (numLoopPoints : ℝ)) * Real.pi * 2
          let forwardOffset := Real.cos angle * loopRadius
          let heightOffset := Real.sin angle * loopRadius
          ⟨mkPointId (c0 + 2 + i),
           ⟨loopCenterX + direction.x * forwardOffset,
            loopCenterY + heightOffset,
            loopCenterZ + direction.z * forwardOffset⟩, 0⟩
      let exitStart := leadInDist + loopRadius * 2
      let leadOut : List TrackPoint :=
        [⟨mkPointId (c0 + 18),
          ⟨pos.x + direction.x * (exitStart + 2), pos.y + 2,
           pos.z + direction.z * (exitStart + 2)⟩, 0⟩,
         ⟨mkPointId (c0 + 19),
          ⟨pos.x + direction.x * (exitStart + leadOutDist - 2), pos.y + 1,
           pos.z + direction.z * (exitStart + leadOutDist - 2)⟩, 0⟩,
         ⟨mkPointId (c0 + 20),
          ⟨pos.x + direction.x * totalLoopLength, pos.y,
           pos.z + direction.z * totalLoopLength⟩, 0⟩]
      { st with
          trackPoints :=
            st.trackPoints.take (pointIndex + 1)
              ++ (leadIn ++ mainLoop ++ leadOut) ++ shiftedPoints,
          pointCounter := c0 + 20 }

/-! ### The ride integrator (`RideCamera.tsx` `useFrame`, speed and progress
portion; the remainder of the frame callback only updates camera pose
smoothing state). -/

/-- The ride-tick environment: the curve (via `getPoint`), its `getLength()`,
the precomputed first-peak parameter, and the constants imported from
`lib/config/scale` (that module is not under `src/`, so the constants are
parameters here; no claim depends on their values). -/
structure RideCfg where
  getPoint : ℝ → Vec3
  curveLength : ℝ
  firstPeakT : ℝ
  chainSpeed : ℝ
  minRideSpeed : ℝ
  gravityScale : ℝ

/-- The speed chosen for the tick: chain-lift constant speed before the first
peak, otherwise the energy-conservation speed with a minimum floor, both
scaled by the user speed multiplier. -/
def tickSpeed (cfg : RideCfg) (st : StoreState) (maxH : ℝ) : ℝ :=
  let currentHeight := (cfg.getPoint st.rideProgress).y
  if st.hasChainLift = true ∧ st.rideProgress < cfg.firstPeakT then
    cfg.chainSpeed * st.rideSpeed
  else
    let maxH1 := max maxH currentHeight
    let gravity := 9.8 * cfg.gravityScale
    let heightDrop := maxH1 - currentHeight
    let energySpeed := Real.sqrt (2 * gravity * max 0 heightDrop)
    max cfg.minRideSpeed energySpeed * st.rideSpeed

/-- Mirrors `maxHeightReached.current = Math.max(maxHeightReached.current,
currentHeight)` — performed in both speed branches. -/
def tickMaxHeight (cfg : RideCfg) (st : StoreState) (maxH : ℝ) : ℝ :=
  max maxH ((cfg.getPoint st.rideProgress).y)

/-- Mirrors `newProgress = rideProgress + (speed * delta) / curveLength`. -/
def tickNewProgress (cfg : RideCfg) (delta : ℝ) (st : StoreState) (maxH : ℝ) : ℝ :=
  st.rideProgress + tickSpeed cfg st maxH * delta / cfg.curveLength

/-- JS `x % 1` for the nonnegative finite `x` that reaches it. -/
def jsMod1 (x : ℝ) : ℝ := x - Int.floor x

/-- One integrator tick: returns the store after the tick together with the
new `maxHeightReached` ref.  On reaching the end of an open path the ride
stops via `stopRide`; on a closed path progress wraps modulo 1 and, with
chain lift on, the max-height tracker resets to the height at progress 0. -/
def rideFrameTick (cfg : RideCfg) (delta : ℝ) (st : StoreState) (maxH : ℝ) :
    StoreState × ℝ :=
  if st.isRiding = false then (st, maxH)
  else
    let maxH1 := tickMaxHeight cfg st maxH
    let newProgress := tickNewProgress cfg delta st maxH
    if 1 ≤ newProgress then
      if st.isLooped = true then
        let wrapped := jsMod1 newProgress
        let maxH2 := if st.hasChainLift = true then (cfg.getPoint 0).y else maxH1
        (setRideProgress wrapped st, maxH2)
      else (stopRide st, maxH1)
    else (setRideProgress newProgress st, maxH1)

/-! ### The per-tick up-vector transport of the hybrid `RideCamera`
(the `transportedUp` update block of its `useFrame`). -/

/-- The `transportedUp` update: inside a loop the analytic loop up is used
directly; otherwise, when the previous sample is available and not in a loop,
the previous up is parallel-transported onto the new tangent and
re-orthogonalized; in the remaining cases the sample's local up is copied. -/
def tickTransportedUp (sample : HSample) (prevSample : Option HSample)
    (transportedUp : Vec3) : Vec3 :=
  if sample.inLoop = true then sample.up
  else
    match prevSample with
    | some prev =>
        if prev.inLoop = false then
          let prevTangent := prev.tangent
          let rotationAxis := prevTangent.cross sample.tangent
          let rotationAngle :=
            Real.arccos (min 1 (max (-1) (prevTangent.dot sample.tangent)))
          let u1 :=
            if rotationAxis.lengthSq > 0.0001 ∧ rotationAngle > 0.0001 then
              transportedUp.applyAxisAngle rotationAxis.normalize rotationAngle
            else transportedUp
          let d := u1.dot sample.tangent
          let u2 := u1.sub (sample.tangent.smul d)
          if u2.lengthSq > 0.0001 then u2.normalize
          else
            let w : Vec3 := ⟨0, 1, 0⟩
            (w.sub (sample.tangent.smul (w.dot sample.tangent))).normalize
        else sample.up
    | none => sample.up

/-- Written from the specification's description of FrameTransport: the
minimal rotation taking the previous tangent to the new one (axis =
normalized cross product, angle = arccos of the clamped dot product), skipped
when the tangents are parallel or anti-parallel within tolerance, applied to
the previous up. -/
def minimalRotationUp (prevT newT prevUp : Vec3) : Vec3 :=
  let axis := (prevT.cross newT).normalize
  let angle := Real.arccos (min 1 (max (-1) (prevT.dot newT)))
  if (prevT.cross newT).lengthSq > 0.0001 ∧ angle > 0.0001 then
    prevUp.applyAxisAngle axis angle
  else prevUp

/-- Written from the specification's description: re-orthogonalize the
transported vector against the new tangent (subtract its projection,
renormalize), substituting world-up projected orthogonally when the result
has near-zero length. -/
def reorthogonalizeUp (newT u : Vec3) : Vec3 :=
  let v := u.sub (newT.smul (u.dot newT))
  if v.lengthSq > 0.0001 then v.normalize
  else
    let w : Vec3 := ⟨0, 1, 0⟩
    (w.sub (newT.smul (w.dot newT))).normalize

/-- The specification's transport step: minimal rotation followed by
re-orthogonalization. -/
def specTransportUp (prevT newT prevUp : Vec3) : Vec3 :=
  reorthogonalizeUp newT (minimalRotationUp prevT newT prevUp)

/-! ### Concrete example data used for closed-form witnesses -/

/-- An empty store in its initial configuration. -/
def demoStore0 : StoreState :=
  ⟨CoasterMode.build, [], none, 0, false, 1, false, true, false, false,
   false, false, none, 0⟩

/-- A first demo control point. -/
def demoPointA : TrackPoint := ⟨"a", ⟨0, 0, 0⟩, 0⟩

/-- A second demo control point. -/
def demoPointB : TrackPoint := ⟨"b", ⟨0, 0, 10⟩, 0⟩

/-- A store holding two control points. -/
def demoStore2 : StoreState :=
  ⟨CoasterMode.build, [demoPointA, demoPointB], none, 0, false, 1, false, true,
   false, false, false, false, none, 2⟩

/-- The two-point store with a ride in progress (chain lift off, open path). -/
def demoRideStore : StoreState :=
  { demoStore2 with mode := CoasterMode.ride, isRiding := true }

/-- A simple tick environment over a flat curve. -/
def demoCfg : RideCfg := ⟨fun _ => Vec3.zero, 1, 0.25, 0.9, 2, 1⟩

/-- Two coincident control points at the origin (a degenerate path the editor
can produce). -/
def degeneratePts : List TrackPoint := [⟨"a", ⟨0, 0, 0⟩, 0⟩, ⟨"b", ⟨0, 0, 0⟩, 0⟩]

/-- A straight parametric curve used as an abstract spline in witnesses. -/
def wCurvePoint : ℝ → Vec3 := fun t => ⟨10 * t, 0, 0⟩

/-- Its (constant, unit) tangent. -/
def wCurveTangent : ℝ → Vec3 := fun _ => ⟨1, 0, 0⟩

/-- Well-formedness of a section record: it carries either a loop frame (when
of loop type) or a spline t-range, as every table the builder produces does. -/
def SectionWF (s : TrackSection) : Prop :=
  (s.type = SectionType.loop ∧ s.loopFrame.isSome) ∨
  (s.splineStartT.isSome ∧ s.splineEndT.isSome)

/-- A section's loop frame (if any) is orthonormal — `computeLoopFrame`
produces such frames. -/
def SectionFrameOrtho (s : TrackSection) : Prop :=
  ∀ fr, s.loopFrame = some fr →
    fr.forward.length = 1 ∧ fr.up.length = 1 ∧ fr.forward.dot fr.up = 0

/-- A one-section demo table. -/
def demoSplineSection : TrackSection :=
  ⟨SectionType.spline, 0, 1, 1, none, some 0, some 1⟩

/-- A non-loop hybrid sample used to exercise the transport step. -/
def demoSample : HSample := ⟨⟨0, 0, 0⟩, ⟨1, 0, 0⟩, ⟨0, 1, 0⟩, false⟩

/-- A second non-loop hybrid sample. -/
def demoPrevSample : HSample := ⟨⟨0, 0, -1⟩, ⟨0, 0, 1⟩, ⟨0, 1, 0⟩, false⟩

/-! ## Basic vector lemmas -/

theorem Vec3.lengthSq_nonneg (v : Vec3) : 0 ≤ v.lengthSq := by
  simp only [Vec3.lengthSq]
  nlinarith [mul_self_nonneg v.x, mul_self_nonneg v.y, mul_self_nonneg v.z]

theorem Vec3.length_nonneg (v : Vec3) : 0 ≤ v.length :=
  Real.sqrt_nonneg _

theorem Vec3.length_eq_one_iff (v : Vec3) : v.length = 1 ↔ v.lengthSq = 1 := by
  unfold Vec3.length
  exact Real.sqrt_eq_one

theorem Vec3.length_smul (v : Vec3) (a : ℝ) :
    (v.smul a).length = |a| * v.length := by
  simp only [Vec3.length, Vec3.lengthSq, Vec3.smul]
  rw [show v.x * a * (v.x * a) + v.y * a * (v.y * a) + v.z * a * (v.z * a)
        = a ^ 2 * (v.x * v.x + v.y * v.y + v.z * v.z) by ring]
  rw [Real.sqrt_mul (sq_nonneg a), Real.sqrt_sq_eq_abs]

theorem Vec3.normalize_of_length_one {v : Vec3} (h : v.length = 1) :
    v.normalize = v := by
  simp only [Vec3.normalize, h]
  norm_num
  simp [Vec3.smul]

theorem Vec3.length_normalize {v : Vec3} (h : v.length ≠ 0) :
    v.normalize.length = 1 := by
  have hpos : 0 < v.length := lt_of_le_of_ne v.length_nonneg (Ne.symm h)
  simp only [Vec3.normalize, if_neg h, Vec3.length_smul]
  rw [abs_of_nonneg (by positivity)]
  field_simp

theorem Vec3.dot_smul_left (v w : Vec3) (a : ℝ) :
    (v.smul a).dot w = a * v.dot w := by
  simp only [Vec3.smul, Vec3.dot]
  ring

theorem Vec3.normalize_dot (v w : Vec3) :
    v.normalize.dot w = (1 / (if v.length = 0 then 1 else v.length)) * v.dot w :=
  Vec3.dot_smul_left v w _

theorem Vec3.length_neg (v : Vec3) : v.neg.length = v.length := by
  simp only [Vec3.length, Vec3.lengthSq, Vec3.neg]
  ring_nf

/-- Evaluation of the double `addScaledVector` pattern used by the loop
sampler. -/
theorem Vec3.zero_addScaled_addScaled (a b : Vec3) (c s : ℝ) :
    (Vec3.zero.addScaled a c).addScaled b s
      = ⟨a.x * c + b.x * s, a.y * c + b.y * s, a.z * c + b.z * s⟩ := by
  simp only [Vec3.addScaled, Vec3.add, Vec3.smul, Vec3.zero, Vec3.mk.injEq]
  refine ⟨by ring, by ring, by ring⟩

/-! ## C5: loop sampler at the entry, top and exit angles -/

/-- C5: for every loop frame whose entry forward and entry up are orthonormal,
the analytic loop sampler returns, at θ=0, tangent equal to the entry forward
and up equal to the entry up; at θ=π, up equal to the negation of the entry up
(inversion); and at θ=2π, tangent and up both equal to the entry forward and
entry up again (closure). -/
theorem loopSampler_entry_inversion_closure (frame : LoopFrame)
    (hf : frame.forward.length = 1) (hu : frame.up.length = 1)
    (hfu : frame.forward.dot frame.up = 0) :
    (sampleLoopAnalytically frame 0).tangent = frame.forward ∧
    (sampleLoopAnalytically frame 0).up = frame.up ∧
    (sampleLoopAnalytically frame Real.pi).up = frame.up.neg ∧
    (sampleLoopAnalytically frame (2 * Real.pi)).tangent = frame.forward ∧
    (sampleLoopAnalytically frame (2 * Real.pi)).up = frame.up := by
  have hunit_neg : frame.up.neg.length = 1 := by rw [Vec3.length_neg, hu]
  refine ⟨?_, ?_, ?_, ?_, ?_⟩
  · show ((Vec3.zero.addScaled frame.forward (Real.cos 0)).addScaled frame.up
        (Real.sin 0)).normalize = frame.forward
    rw [Vec3.zero_addScaled_addScaled, Real.cos_zero, Real.sin_zero]
    have : (⟨frame.forward.x * 1 + frame.up.x * 0,
            frame.forward.y * 1 + frame.up.y * 0,
            frame.forward.z * 1 + frame.up.z * 0⟩ : Vec3) = frame.forward := by
      simp
    rw [this, Vec3.normalize_of_length_one hf]
  · show ((Vec3.zero.addScaled frame.forward (-Real.sin 0)).addScaled frame.up
        (Real.cos 0)).normalize = frame.up
    rw [Vec3.zero_addScaled_addScaled, Real.cos_zero, Real.sin_zero]
    have : (⟨frame.forward.x * -0 + frame.up.x * 1,
            frame.forward.y * -0 + frame.up.y * 1,
            frame.forward.z * -0 + frame.up.z * 1⟩ : Vec3) = frame.up := by
      simp
    rw [this, Vec3.normalize_of_length_one hu]
  · show ((Vec3.zero.addScaled frame.forward (-Real.sin Real.pi)).addScaled frame.up
        (Real.cos Real.pi)).normalize = frame.up.neg
    rw [Vec3.zero_addScaled_addScaled, Real.cos_pi, Real.sin_pi]
    have : (⟨frame.forward.x * -0 + frame.up.x * (-1),
            frame.forward.y * -0 + frame.up.y * (-1),
            frame.forward.z * -0 + frame.up.z * (-1)⟩ : Vec3) = frame.up.neg := by
      simp [Vec3.neg]
    rw [this, Vec3.normalize_of_length_one hunit_neg]
  · show ((Vec3.zero.addScaled frame.forward (Real.cos (2 * Real.pi))).addScaled
        frame.up (Real.sin (2 * Real.pi))).normalize = frame.forward
    rw [Vec3.zero_addScaled_addScaled, Real.cos_two_pi, Real.sin_two_pi]
    have : (⟨frame.forward.x * 1 + frame.up.x * 0,
            frame.forward.y * 1 + frame.up.y * 0,
            frame.forward.z * 1 + frame.up.z * 0⟩ : Vec3) = frame.forward := by
      simp
    rw [this, Vec3.normalize_of_length_one hf]
  · show ((Vec3.zero.addScaled frame.forward (-Real.sin (2 * Real.pi))).addScaled
        frame.up (Real.cos (2 * Real.pi))).normalize = frame.up
    rw [Vec3.zero_addScaled_addScaled, Real.cos_two_pi, Real.sin_two_pi]
    have : (⟨frame.forward.x * -0 + frame.up.x * 1,
            frame.forward.y * -0 + frame.up.y * 1,
            frame.forward.z * -0 + frame.up.z * 1⟩ : Vec3) = frame.up := by
      simp
    rw [this, Vec3.normalize_of_length_one hu]

/-- Witness for C5 at the canonical world-axis entry frame. -/
theorem loopSampler_entry_inversion_closure_witness :
    ((⟨1, 0, 0⟩ : Vec3).length = 1 ∧ (⟨0, 1, 0⟩ : Vec3).length = 1 ∧
      (⟨1, 0, 0⟩ : Vec3).dot ⟨0, 1, 0⟩ = 0) ∧
    ((sampleLoopAnalytically ⟨⟨0, 0, 0⟩, ⟨1, 0, 0⟩, ⟨0, 1, 0⟩, ⟨0, 0, 1⟩, 1⟩ 0).tangent
        = ⟨1, 0, 0⟩ ∧
      (sampleLoopAnalytically ⟨⟨0, 0, 0⟩, ⟨1, 0, 0⟩, ⟨0, 1, 0⟩, ⟨0, 0, 1⟩, 1⟩ 0).up
        = ⟨0, 1, 0⟩ ∧
      (sampleLoopAnalytically ⟨⟨0, 0, 0⟩, ⟨1, 0, 0⟩, ⟨0, 1, 0⟩, ⟨0, 0, 1⟩, 1⟩ Real.pi).up
        = (⟨0, 1, 0⟩ : Vec3).neg ∧
      (sampleLoopAnalytically ⟨⟨0, 0, 0⟩, ⟨1, 0, 0⟩, ⟨0, 1, 0⟩, ⟨0, 0, 1⟩, 1⟩
          (2 * Real.pi)).tangent = ⟨1, 0, 0⟩ ∧
      (sampleLoopAnalytically ⟨⟨0, 0, 0⟩, ⟨1, 0, 0⟩, ⟨0, 1, 0⟩, ⟨0, 0, 1⟩, 1⟩
          (2 * Real.pi)).up = ⟨0, 1, 0⟩) := by
  have h1 : (⟨1, 0, 0⟩ : Vec3).length = 1 := by
    simp [Vec3.length, Vec3.lengthSq]
  have h2 : (⟨0, 1, 0⟩ : Vec3).length = 1 := by
    simp [Vec3.length, Vec3.lengthSq]
  have h3 : (⟨1, 0, 0⟩ : Vec3).dot ⟨0, 1, 0⟩ = 0 := by
    simp [Vec3.dot]
  exact ⟨⟨h1, h2, h3⟩,
    loopSampler_entry_inversion_closure ⟨⟨0, 0, 0⟩, ⟨1, 0, 0⟩, ⟨0, 1, 0⟩, ⟨0, 0, 1⟩, 1⟩
      h1 h2 h3⟩

/-! ## C8: the eased loop schedule -/

/-- C8: the eased loop parameterization satisfies θ(0)=0 and θ(1)=2π, its
angular velocity is dθ/du = 2π·(1 − cos(2πu)) (the stated derivative is the
true derivative of θ everywhere), and that angular velocity vanishes at both
u=0 and u=1. -/
theorem thetaEased_endpoints_zero_angular_velocity :
    thetaEased 0 = 0 ∧ thetaEased 1 = Real.pi * 2 ∧
    dThetaDt 0 = 0 ∧ dThetaDt 1 = 0 ∧
    ∀ u : ℝ, HasDerivAt thetaEased (dThetaDt u) u := by
  have hsin1 : Real.sin (Real.pi * 2 * 1) = 0 := by
    rw [mul_one, mul_comm]
    exact Real.sin_two_pi
  have hcos1 : Real.cos (Real.pi * 2 * 1) = 1 := by
    rw [mul_one, mul_comm]
    exact Real.cos_two_pi
  refine ⟨?_, ?_, ?_, ?_, ?_⟩
  · simp [thetaEased]
  · rw [thetaEased, hsin1]
    norm_num
  · simp [dThetaDt]
  · rw [dThetaDt, hcos1]
    norm_num
  · intro u
    have hsin : HasDerivAt (fun t : ℝ => Real.sin (Real.pi * 2 * t))
        (Real.cos (Real.pi * 2 * u) * (Real.pi * 2 * 1)) u := by
      have hin : HasDerivAt (fun t : ℝ => Real.pi * 2 * t) (Real.pi * 2 * 1) u :=
        (hasDerivAt_id u).const_mul (Real.pi * 2)
      exact hin.sin
    have hinner : HasDerivAt
        (fun t : ℝ => t - Real.sin (Real.pi * 2 * t) / (Real.pi * 2))
        (1 - Real.cos (Real.pi * 2 * u) * (Real.pi * 2 * 1) / (Real.pi * 2)) u :=
      (hasDerivAt_id u).sub (hsin.div_const (Real.pi * 2))
    have houter := hinner.const_mul (Real.pi * 2)
    have heq : Real.pi * 2 *
        (1 - Real.cos (Real.pi * 2 * u) * (Real.pi * 2 * 1) / (Real.pi * 2))
          = dThetaDt u := by
      rw [dThetaDt]
      have hpi : (Real.pi : ℝ) ≠ 0 := Real.pi_ne_zero
      field_simp
    rw [heq] at houter
    exact houter

/-! ## C4: `startRide` precondition -/

/-- C4: `startRide` changes the store state only when at least 2 track points
exist; with fewer than 2 points the entire state is left unchanged, and with
2 or more it sets mode to ride, `isRiding` to true and `rideProgress` to 0,
leaving the track points themselves unchanged. -/
theorem startRide_precondition (st : StoreState) :
    (st.trackPoints.length < 2 → startRide st = st) ∧
    (2 ≤ st.trackPoints.length →
      (startRide st).mode = CoasterMode.ride ∧
      (startRide st).isRiding = true ∧
      (startRide st).rideProgress = 0 ∧
      (startRide st).trackPoints = st.trackPoints) := by
  constructor
  · intro h
    rw [startRide, if_neg (by omega)]
  · intro h
    rw [startRide, if_pos h]
    exact ⟨rfl, rfl, rfl, rfl⟩

/-- Witness for C4 on the empty store and on a two-point store. -/
theorem startRide_precondition_witness :
    (demoStore0.trackPoints.length < 2 ∧ startRide demoStore0 = demoStore0) ∧
    (2 ≤ demoStore2.trackPoints.length ∧
      (startRide demoStore2).mode = CoasterMode.ride ∧
      (startRide demoStore2).isRiding = true ∧
      (startRide demoStore2).rideProgress = 0 ∧
      (startRide demoStore2).trackPoints = demoStore2.trackPoints) := by
  have h0 : demoStore0.trackPoints.length < 2 := by simp [demoStore0]
  have h2 : 2 ≤ demoStore2.trackPoints.length := by simp [demoStore2]
  exact ⟨⟨h0, (startRide_precondition demoStore0).1 h0⟩,
         ⟨h2, (startRide_precondition demoStore2).2 h2⟩⟩

/-! ## C9: `createLoopAtPoint` on a missing id -/

/-- C9: for every store state and every id matching no existing track point,
`createLoopAtPoint` leaves the store state entirely unchanged. -/
theorem createLoopAtPoint_missing_id_noop (id : String) (st : StoreState)
    (h : ∀ p ∈ st.trackPoints, p.id ≠ id) :
    createLoopAtPoint id st = st := by
  have hfind : st.trackPoints.findIdx? (fun p => p.id == id) = none := by
    rw [List.findIdx?_eq_none_iff]
    intro p hp
    simpa using h p hp
  rw [createLoopAtPoint, hfind]

/-- Witness for C9: an id not present in the two-point store. -/
theorem createLoopAtPoint_missing_id_noop_witness :
    (∀ p ∈ demoStore2.trackPoints, p.id ≠ "zzz") ∧
    createLoopAtPoint "zzz" demoStore2 = demoStore2 := by
  have h : ∀ p ∈ demoStore2.trackPoints, p.id ≠ "zzz" := by
    simp [demoStore2, demoPointA, demoPointB]
  exact ⟨h, createLoopAtPoint_missing_id_noop "zzz" demoStore2 h⟩

/-! ## C1: free-rolling energy speed -/

/-- C1: during an active ride, whenever the free-rolling branch is taken
(chain lift disabled, or progress at or past the first-peak progress), the
tick's speed is max(minimum ride speed, sqrt(2·g·max(0, maxHeightReached −
currentHeight))) scaled by the user speed multiplier, where maxHeightReached
is the running maximum (previous tracker joined with the currently sampled
track height); on a non-wrapping tick that running maximum is what the
tracker stores. -/
theorem freeRolling_energy_speed (cfg : RideCfg) (delta : ℝ) (st : StoreState)
    (maxH : ℝ) (hRiding : st.isRiding = true)
    (hBranch : ¬(st.hasChainLift = true ∧ st.rideProgress < cfg.firstPeakT)) :
    tickSpeed cfg st maxH
      = max cfg.minRideSpeed
          (Real.sqrt (2 * (9.8 * cfg.gravityScale) *
            max 0 (max maxH ((cfg.getPoint st.rideProgress).y)
                    - (cfg.getPoint st.rideProgress).y)))
        * st.rideSpeed ∧
    (tickNewProgress cfg delta st maxH < 1 →
      (rideFrameTick cfg delta st maxH).2
        = max maxH ((cfg.getPoint st.rideProgress).y)) := by
  constructor
  · rw [tickSpeed, if_neg hBranch]
  · intro hlt
    rw [rideFrameTick, if_neg (by simp [hRiding]), if_neg (not_le.mpr hlt)]
    rfl

/-- Witness for C1 on the flat demo configuration with chain lift off. -/
theorem freeRolling_energy_speed_witness :
    (demoRideStore.isRiding = true ∧
      ¬(demoRideStore.hasChainLift = true ∧
        demoRideStore.rideProgress < demoCfg.firstPeakT)) ∧
    (tickSpeed demoCfg demoRideStore 0
      = max demoCfg.minRideSpeed
          (Real.sqrt (2 * (9.8 * demoCfg.gravityScale) *
            max 0 (max 0 ((demoCfg.getPoint demoRideStore.rideProgress).y)
                    - (demoCfg.getPoint demoRideStore.rideProgress).y)))
        * demoRideStore.rideSpeed ∧
    (tickNewProgress demoCfg 1 demoRideStore 0 < 1 →
      (rideFrameTick demoCfg 1 demoRideStore 0).2
        = max 0 ((demoCfg.getPoint demoRideStore.rideProgress).y))) := by
  have h1 : demoRideStore.isRiding = true := rfl
  have h2 : ¬(demoRideStore.hasChainLift = true ∧
      demoRideStore.rideProgress < demoCfg.firstPeakT) := by
    simp [demoRideStore, demoStore2]
  exact ⟨⟨h1, h2⟩, freeRolling_energy_speed demoCfg 1 demoRideStore 0 h1 h2⟩

/-! ## C2: end-of-track behaviour -/

/-- C2: when the advanced progress would reach or exceed 1, on an open path
the ride ends via `stopRide` (mode build, not riding, progress 0 — progress
never wraps), while on a closed path the new progress is the advanced
progress modulo 1 and, with chain lift enabled, the max-height tracker is
reset to the track height at progress 0 (otherwise it keeps the running
maximum). -/
theorem tick_at_path_end (cfg : RideCfg) (delta : ℝ) (st : StoreState)
    (maxH : ℝ) (hRiding : st.isRiding = true)
    (hEnd : 1 ≤ tickNewProgress cfg delta st maxH) :
    (st.isLooped = false →
      rideFrameTick cfg delta st maxH = (stopRide st, tickMaxHeight cfg st maxH) ∧
      (stopRide st).isRiding = false ∧
      (stopRide st).rideProgress = 0 ∧
      (stopRide st).mode = CoasterMode.build) ∧
    (st.isLooped = true →
      (rideFrameTick cfg delta st maxH).1.rideProgress
        = jsMod1 (tickNewProgress cfg delta st maxH) ∧
      jsMod1 (tickNewProgress cfg delta st maxH)
        = tickNewProgress cfg delta st maxH
            - (Int.floor (tickNewProgress cfg delta st maxH) : ℝ) ∧
      (st.hasChainLift = true →
        (rideFrameTick cfg delta st maxH).2 = (cfg.getPoint 0).y) ∧
      (st.hasChainLift = false →
        (rideFrameTick cfg delta st maxH).2 = tickMaxHeight cfg st maxH)) := by
  constructor
  · intro hopen
    rw [rideFrameTick, if_neg (by simp [hRiding]), if_pos hEnd, if_neg (by simp [hopen])]
    exact ⟨rfl, rfl, rfl, rfl⟩
  · intro hclosed
    rw [rideFrameTick, if_neg (by simp [hRiding]), if_pos hEnd, if_pos hclosed]
    refine ⟨rfl, rfl, ?_, ?_⟩
    · intro hchain
      simp [hchain]
    · intro hchain
      simp [hchain]

/-- Witness for C2 on the flat open demo track: the advanced progress is 2,
so the ride stops. -/
theorem tick_at_path_end_witness :
    (demoRideStore.isRiding = true ∧
      1 ≤ tickNewProgress demoCfg 1 demoRideStore 0) ∧
    (demoRideStore.isLooped = false →
      rideFrameTick demoCfg 1 demoRideStore 0
        = (stopRide demoRideStore, tickMaxHeight demoCfg demoRideStore 0) ∧
      (stopRide demoRideStore).isRiding = false ∧
      (stopRide demoRideStore).rideProgress = 0 ∧
      (stopRide demoRideStore).mode = CoasterMode.build) := by
  have h1 : demoRideStore.isRiding = true := rfl
  have h2 : 1 ≤ tickNewProgress demoCfg 1 demoRideStore 0 := by
    have hs : tickSpeed demoCfg demoRideStore 0 = 2 := by
      rw [tickSpeed]
      simp only [demoRideStore, demoStore2, demoCfg]
      norm_num [Vec3.zero, Real.sqrt_zero]
    rw [tickNewProgress, hs]
    simp [demoRideStore, demoStore2, demoCfg]
  exact ⟨⟨h1, h2⟩, (tick_at_path_end demoCfg 1 demoRideStore 0 h1 h2).1⟩

/-! ## C6: the transported up vector matches the specified transport -/

/-- C6: on a tick whose current and previous samples are both outside loop
sections, the new transported up equals the specification's transport: the
minimal rotation taking the previous tangent to the new tangent (skipped for
near-parallel or near-anti-parallel tangents) applied to the previous up,
re-orthogonalized against the new tangent with the world-up fallback. -/
theorem transportedUp_matches_spec (sample prev : HSample) (tu : Vec3)
    (hs : sample.inLoop = false) (hp : prev.inLoop = false) :
    tickTransportedUp sample (some prev) tu
      = specTransportUp prev.tangent sample.tangent tu := by
  rw [tickTransportedUp, if_neg (by simp [hs])]
  rw [specTransportUp, minimalRotationUp, reorthogonalizeUp]
  simp only [hp, if_pos]

/-- Witness for C6 on two concrete non-loop samples. -/
theorem transportedUp_matches_spec_witness :
    (demoSample.inLoop = false ∧ demoPrevSample.inLoop = false) ∧
    tickTransportedUp demoSample (some demoPrevSample) ⟨0, 1, 0⟩
      = specTransportUp demoPrevSample.tangent demoSample.tangent ⟨0, 1, 0⟩ :=
  ⟨⟨rfl, rfl⟩, transportedUp_matches_spec demoSample demoPrevSample ⟨0, 1, 0⟩ rfl rfl⟩

/-! ## C7: out-of-range progress is clamped -/

/-- C7: the hybrid sampler clamps progress into [0, 0.9999] first, so for any
real progress and a non-empty section table it returns exactly the sample of
the clamped progress (no separate error path for out-of-range progress). -/
theorem sampleHybridTrack_clamps (p : ℝ) (sections : List TrackSection)
    (gp gt : ℝ → Vec3) (hne : sections ≠ []) :
    sampleHybridTrack p sections gp gt
      = sampleHybridTrack (max 0 (min p 0.9999)) sections gp gt := by
  rw [sampleHybridTrack, sampleHybridTrack, if_neg hne, if_neg hne]
  have hclamp : max 0 (min (max 0 (min p 0.9999)) 0.9999) = max 0 (min p 0.9999) := by
    have h1 : min (max 0 (min p 0.9999)) 0.9999 = max 0 (min p 0.9999) :=
      min_eq_left (max_le (by norm_num) (min_le_right _ _))
    rw [h1, ← max_assoc, max_self]
  exact congrArg (fun q : ℝ => sampleHybridTrackAux q sections gp gt) hclamp.symm

/-- Witness for C7: progress 5 on a singleton table. -/
theorem sampleHybridTrack_clamps_witness :
    ([dummySection] ≠ ([] : List TrackSection)) ∧
    sampleHybridTrack 5 [dummySection] (fun _ => Vec3.zero) (fun _ => Vec3.zero)
      = sampleHybridTrack (max 0 (min 5 0.9999)) [dummySection]
          (fun _ => Vec3.zero) (fun _ => Vec3.zero) := by
  have h : [dummySection] ≠ ([] : List TrackSection) := by simp
  exact ⟨h, sampleHybridTrack_clamps 5 [dummySection] _ _ h⟩

/-! ## C10: the sampler is total with an orthonormal up on well-formed tables -/

theorem Vec3.eq_zero_of_length_eq_zero {v : Vec3} (h : v.length = 0) :
    v = Vec3.zero := by
  have h2 : v.lengthSq = 0 := (Real.sqrt_eq_zero v.lengthSq_nonneg).mp h
  simp only [Vec3.lengthSq] at h2
  have hx : v.x = 0 := by nlinarith [mul_self_nonneg v.x, mul_self_nonneg v.y, mul_self_nonneg v.z]
  have hy : v.y = 0 := by nlinarith [mul_self_nonneg v.x, mul_self_nonneg v.y, mul_self_nonneg v.z]
  have hz : v.z = 0 := by nlinarith [mul_self_nonneg v.x, mul_self_nonneg v.y, mul_self_nonneg v.z]
  cases v
  simp only [Vec3.zero] at *
  simp [hx, hy, hz]

theorem Vec3.normalize_cases (v : Vec3) :
    v.normalize.lengthSq = 1 ∨ v.normalize = Vec3.zero := by
  by_cases h : v.length = 0
  · right
    rw [Vec3.eq_zero_of_length_eq_zero h]
    simp [Vec3.normalize, Vec3.zero, Vec3.length, Vec3.lengthSq, Vec3.smul]
  · left
    exact (Vec3.length_eq_one_iff _).mp (Vec3.length_normalize h)

theorem Vec3.projectOut_dot (T v : Vec3) (hT : T.lengthSq = 1) :
    (v.sub (T.smul (v.dot T))).dot T = 0 := by
  simp only [Vec3.sub, Vec3.smul, Vec3.dot, Vec3.lengthSq] at hT ⊢
  linear_combination (-(v.x * T.x + v.y * T.y + v.z * T.z)) * hT

theorem Vec3.projectOut_lengthSq (T v : Vec3) (hT : T.lengthSq = 1) :
    (v.sub (T.smul (v.dot T))).lengthSq = v.lengthSq - v.dot T * v.dot T := by
  simp only [Vec3.sub, Vec3.smul, Vec3.dot, Vec3.lengthSq] at hT ⊢
  linear_combination
    ((v.x * T.x + v.y * T.y + v.z * T.z) * (v.x * T.x + v.y * T.y + v.z * T.z)) * hT

/-- Normalizing a vector that is orthogonal to `T` and has positive squared
length yields a unit vector still orthogonal to `T`. -/
theorem Vec3.normalize_unit_ortho_of (w T : Vec3) (hw : w.dot T = 0)
    (hwpos : 0 < w.lengthSq) :
    w.normalize.length = 1 ∧ w.normalize.dot T = 0 := by
  have hlen : w.length ≠ 0 := by
    intro h
    have h2 : w.lengthSq = 0 := (Real.sqrt_eq_zero w.lengthSq_nonneg).mp h
    linarith
  exact ⟨Vec3.length_normalize hlen, by rw [Vec3.normalize_dot, hw, mul_zero]⟩

/-- The spline-branch local up vector is a unit vector orthogonal to the
(normalized or zero) tangent: the x-axis fallback covers the near-vertical
tangent. -/
theorem splineLocalUp_unit_ortho (T : Vec3)
    (hT : T.lengthSq = 1 ∨ T = Vec3.zero) :
    (splineLocalUp T).length = 1 ∧ (splineLocalUp T).dot T = 0 := by
  rcases hT with hT | hT
  · have hdotY : ((⟨0, 1, 0⟩ : Vec3).dot T) = T.y := by
      simp [Vec3.dot]
    have hdotX : ((⟨1, 0, 0⟩ : Vec3).dot T) = T.x := by
      simp [Vec3.dot]
    have hsqY : ((⟨0, 1, 0⟩ : Vec3) : Vec3).lengthSq = 1 := by
      simp [Vec3.lengthSq]
    have hsqX : ((⟨1, 0, 0⟩ : Vec3) : Vec3).lengthSq = 1 := by
      simp [Vec3.lengthSq]
    simp only [splineLocalUp]
    split
    · rename_i hcond
      apply Vec3.normalize_unit_ortho_of _ _ (Vec3.projectOut_dot T _ hT)
      linarith [hcond]
    · rename_i hcond
      apply Vec3.normalize_unit_ortho_of _ _ (Vec3.projectOut_dot T _ hT)
      rw [Vec3.projectOut_lengthSq T _ hT, hdotX, hsqX]
      rw [Vec3.projectOut_lengthSq T _ hT, hdotY, hsqY] at hcond
      have hTsq := hT
      simp only [Vec3.lengthSq] at hTsq
      push_neg at hcond
      nlinarith [mul_self_nonneg T.z]
  · rw [hT]
    have e1 : (⟨0, 1, 0⟩ : Vec3).length = 1 := by
      simp [Vec3.length, Vec3.lengthSq]
    have hcalc : splineLocalUp Vec3.zero = (⟨0, 1, 0⟩ : Vec3).normalize := by
      simp only [splineLocalUp]
      rw [if_pos]
      · congr 1
        simp [Vec3.sub, Vec3.smul, Vec3.dot, Vec3.zero]
      · norm_num [Vec3.sub, Vec3.smul, Vec3.dot, Vec3.zero, Vec3.lengthSq]
    rw [hcalc, Vec3.normalize_of_length_one e1]
    refine ⟨e1, ?_⟩
    simp [Vec3.dot, Vec3.zero]

/-- The analytic loop sample has a unit up orthogonal to its tangent whenever
the frame is orthonormal. -/
theorem loopSample_up_unit_ortho (fr : LoopFrame) (theta : ℝ)
    (hf : fr.forward.length = 1) (hu : fr.up.length = 1)
    (hfu : fr.forward.dot fr.up = 0) :
    (sampleLoopAnalytically fr theta).up.length = 1 ∧
    (sampleLoopAnalytically fr theta).up.dot
      (sampleLoopAnalytically fr theta).tangent = 0 := by
  have hfsq := (Vec3.length_eq_one_iff _).mp hf
  have husq := (Vec3.length_eq_one_iff _).mp hu
  have hpyth := Real.sin_sq_add_cos_sq theta
  have hU : (Vec3.zero.addScaled fr.forward (-Real.sin theta)).addScaled fr.up
      (Real.cos theta)
      = ⟨fr.forward.x * -Real.sin theta + fr.up.x * Real.cos theta,
         fr.forward.y * -Real.sin theta + fr.up.y * Real.cos theta,
         fr.forward.z * -Real.sin theta + fr.up.z * Real.cos theta⟩ :=
    Vec3.zero_addScaled_addScaled _ _ _ _
  have hV : (Vec3.zero.addScaled fr.forward (Real.cos theta)).addScaled fr.up
      (Real.sin theta)
      = ⟨fr.forward.x * Real.cos theta + fr.up.x * Real.sin theta,
         fr.forward.y * Real.cos theta + fr.up.y * Real.sin theta,
         fr.forward.z * Real.cos theta + fr.up.z * Real.sin theta⟩ :=
    Vec3.zero_addScaled_addScaled _ _ _ _
  have hUsq : ((Vec3.zero.addScaled fr.forward (-Real.sin theta)).addScaled fr.up
      (Real.cos theta)).lengthSq = 1 := by
    rw [hU]
    simp only [Vec3.lengthSq] at hfsq husq ⊢
    simp only [Vec3.dot] at hfu
    linear_combination (Real.sin theta * Real.sin theta) * hfsq
      + (Real.cos theta * Real.cos theta) * husq
      + (-2 * Real.sin theta * Real.cos theta) * hfu + hpyth
  have hVsq : ((Vec3.zero.addScaled fr.forward (Real.cos theta)).addScaled fr.up
      (Real.sin theta)).lengthSq = 1 := by
    rw [hV]
    simp only [Vec3.lengthSq] at hfsq husq ⊢
    simp only [Vec3.dot] at hfu
    linear_combination (Real.cos theta * Real.cos theta) * hfsq
      + (Real.sin theta * Real.sin theta) * husq
      + (2 * Real.sin theta * Real.cos theta) * hfu + hpyth
  have hUV : ((Vec3.zero.addScaled fr.forward (-Real.sin theta)).addScaled fr.up
      (Real.cos theta)).dot
      ((Vec3.zero.addScaled fr.forward (Real.cos theta)).addScaled fr.up
        (Real.sin theta)) = 0 := by
    rw [hU, hV]
    simp only [Vec3.dot]
    simp only [Vec3.lengthSq] at hfsq husq
    simp only [Vec3.dot] at hfu
    linear_combination (-(Real.sin theta * Real.cos theta)) * hfsq
      + (Real.sin theta * Real.cos theta) * husq
      + (Real.cos theta * Real.cos theta - Real.sin theta * Real.sin theta) * hfu
  have hUlen : ((Vec3.zero.addScaled fr.forward (-Real.sin theta)).addScaled fr.up
      (Real.cos theta)).length = 1 := (Vec3.length_eq_one_iff _).mpr hUsq
  have hVlen : ((Vec3.zero.addScaled fr.forward (Real.cos theta)).addScaled fr.up
      (Real.sin theta)).length = 1 := (Vec3.length_eq_one_iff _).mpr hVsq
  have hupEq : (sampleLoopAnalytically fr theta).up
      = (Vec3.zero.addScaled fr.forward (-Real.sin theta)).addScaled fr.up
          (Real.cos theta) := by
    show ((Vec3.zero.addScaled fr.forward (-Real.sin theta)).addScaled fr.up
        (Real.cos theta)).normalize = _
    exact Vec3.normalize_of_length_one hUlen
  have htanEq : (sampleLoopAnalytically fr theta).tangent
      = (Vec3.zero.addScaled fr.forward (Real.cos theta)).addScaled fr.up
          (Real.sin theta) := by
    show ((Vec3.zero.addScaled fr.forward (Real.cos theta)).addScaled fr.up
        (Real.sin theta)).normalize = _
    exact Vec3.normalize_of_length_one hVlen
  rw [hupEq, htanEq]
  exact ⟨hUlen, hUV⟩

/-- The located section is a member of the table. -/
theorem findSection_mem (p : ℝ) (sections : List TrackSection)
    (hne : sections ≠ []) : findSection p sections ∈ sections := by
  rw [findSection]
  rcases hfind : sections.find?
      (fun s => decide (s.startProgress ≤ p ∧ p < s.endProgress)) with _ | s
  · simp only [hfind]
    rw [List.getLast?_eq_getLast sections hne, Option.getD_some]
    exact List.getLast_mem hne
  · simp only [hfind]
    exact List.mem_of_find?_eq_some hfind

/-- Dispatching on a well-formed section with orthonormal loop frame always
produces a sample, with a unit up orthogonal to the tangent. -/
theorem sampleSection_total_ortho (p : ℝ) (sec : TrackSection)
    (gp gt : ℝ → Vec3) (hwf : SectionWF sec) (ho : SectionFrameOrtho sec) :
    ∃ out, sampleSection p sec gp gt = some out ∧
      out.up.length = 1 ∧ out.up.dot out.tangent = 0 := by
  by_cases hcond : sec.type = SectionType.loop ∧ sec.loopFrame.isSome
  · have hfr : sec.loopFrame = some (sec.loopFrame.get hcond.2) :=
      (Option.some_get hcond.2).symm
    obtain ⟨h1, h2, h3⟩ := ho _ hfr
    refine ⟨⟨(sampleLoopAnalytically (sec.loopFrame.get hcond.2)
        ((p - sec.startProgress) / (sec.endProgress - sec.startProgress)
          * Real.pi * 2)).point,
      (sampleLoopAnalytically (sec.loopFrame.get hcond.2)
        ((p - sec.startProgress) / (sec.endProgress - sec.startProgress)
          * Real.pi * 2)).tangent,
      (sampleLoopAnalytically (sec.loopFrame.get hcond.2)
        ((p - sec.startProgress) / (sec.endProgress - sec.startProgress)
          * Real.pi * 2)).up, true⟩, ?_, ?_, ?_⟩
    · simp only [sampleSection]
      rw [dif_pos hcond]
    · exact (loopSample_up_unit_ortho _ _ h1 h2 h3).1
    · exact (loopSample_up_unit_ortho _ _ h1 h2 h3).2
  · rcases hwf with hloop | ⟨ha, hb⟩
    · exact absurd hloop hcond
    · obtain ⟨a, ha'⟩ := Option.isSome_iff_exists.mp ha
      obtain ⟨b, hb'⟩ := Option.isSome_iff_exists.mp hb
      refine ⟨⟨gp (a + (p - sec.startProgress) /
            (sec.endProgress - sec.startProgress) * (b - a)),
        (gt (a + (p - sec.startProgress) /
            (sec.endProgress - sec.startProgress) * (b - a))).normalize,
        splineLocalUp ((gt (a + (p - sec.startProgress) /
            (sec.endProgress - sec.startProgress) * (b - a))).normalize),
        false⟩, ?_, ?_⟩
      · simp only [sampleSection]
        rw [dif_neg hcond, ha', hb']
      · exact splineLocalUp_unit_ortho _
          ((gt (a + (p - sec.startProgress) /
              (sec.endProgress - sec.startProgress) * (b - a))).normalize_cases)

/-- C10: for every non-empty section table whose sections each carry a loop
frame (orthonormal, as the builder produces) or a spline t-range,
`sampleHybridTrack` never returns null, and the up vector it returns is unit
length and orthogonal to the returned tangent. -/
theorem sampleHybridTrack_never_null_ortho (p : ℝ)
    (sections : List TrackSection) (gp gt : ℝ → Vec3) (hne : sections ≠ [])
    (hwf : ∀ s ∈ sections, SectionWF s ∧ SectionFrameOrtho s) :
    ∃ out, sampleHybridTrack p sections gp gt = some out ∧
      out.up.length = 1 ∧ out.up.dot out.tangent = 0 := by
  rw [sampleHybridTrack, if_neg hne, sampleHybridTrackAux]
  have hmem := findSection_mem (max 0 (min p 0.9999)) sections hne
  obtain ⟨hwfs, hos⟩ := hwf _ hmem
  exact sampleSection_total_ortho _ _ gp gt hwfs hos

/-- Witness for C10 on a singleton spline-section table. -/
theorem sampleHybridTrack_never_null_ortho_witness :
    (([demoSplineSection] : List TrackSection) ≠ [] ∧
      (∀ s ∈ [demoSplineSection], SectionWF s ∧ SectionFrameOrtho s)) ∧
    (∃ out, sampleHybridTrack 0.5 [demoSplineSection]
        (fun _ => Vec3.zero) (fun _ => Vec3.zero) = some out ∧
      out.up.length = 1 ∧ out.up.dot out.tangent = 0) := by
  have hne : ([demoSplineSection] : List TrackSection) ≠ [] := by simp
  have hwf : ∀ s ∈ [demoSplineSection], SectionWF s ∧ SectionFrameOrtho s := by
    intro s hs
    rw [List.mem_singleton] at hs
    subst hs
    constructor
    · right
      simp [demoSplineSection]
    · intro fr hfr
      simp [demoSplineSection] at hfr
  exact ⟨⟨hne, hwf⟩,
    sampleHybridTrack_never_null_ortho 0.5 [demoSplineSection] _ _ hne hwf⟩

/-! ## C3: the normalized section table partitions [0,1) -/

theorem normAux_map_arcLength (total : ℝ) (ss : List TrackSection) (run : ℝ) :
    (normAux total ss run).map TrackSection.arcLength
      = ss.map TrackSection.arcLength := by
  induction ss generalizing run with
  | nil => rfl
  | cons a rest ih =>
      simp only [normAux, List.map_cons, ih]

theorem normAux_ne_nil (total : ℝ) (ss : List TrackSection) (run : ℝ)
    (h : ss ≠ []) : normAux total ss run ≠ [] := by
  cases ss with
  | nil => exact absurd rfl h
  | cons a rest => simp [normAux]

theorem normAux_head?_start (total : ℝ) (ss : List TrackSection) (run : ℝ)
    (h : ss ≠ []) :
    (normAux total ss run).head?.map TrackSection.startProgress
      = some (run / total) := by
  cases ss with
  | nil => exact absurd rfl h
  | cons a rest => rfl

theorem normAux_getLast?_end (total : ℝ) (ss : List TrackSection) (run : ℝ)
    (h : ss ≠ []) :
    (normAux total ss run).getLast?.map TrackSection.endProgress
      = some ((run + (ss.map TrackSection.arcLength).sum) / total) := by
  induction ss generalizing run with
  | nil => exact absurd rfl h
  | cons a rest ih =>
      cases rest with
      | nil =>
          simp only [normAux, List.getLast?_singleton, Option.map_some,
            List.map_cons, List.map_nil, List.sum_cons, List.sum_nil]
          norm_num
      | cons b rest2 =>
          have hne2 : (b :: rest2) ≠ ([] : List TrackSection) := by simp
          calc (normAux total (a :: b :: rest2) run).getLast?.map TrackSection.endProgress
              = (normAux total (b :: rest2) (run + a.arcLength)).getLast?.map
                  TrackSection.endProgress := by
                simp only [normAux, List.getLast?_cons_cons]
            _ = some ((run + a.arcLength
                  + ((b :: rest2).map TrackSection.arcLength).sum) / total) :=
                ih _ hne2
            _ = some ((run + ((a :: b :: rest2).map TrackSection.arcLength).sum)
                  / total) := by
                simp only [List.map_cons, List.sum_cons]
                ring_nf

theorem normAux_chain (total : ℝ) (ss : List TrackSection) (run : ℝ) :
    ∀ i, i + 1 < (normAux total ss run).length →
      ((normAux total ss run).getD (i + 1) dummySection).startProgress
        = ((normAux total ss run).getD i dummySection).endProgress := by
  induction ss generalizing run with
  | nil => intro i hi; simp [normAux] at hi
  | cons a rest ih =>
      intro i hi
      cases rest with
      | nil => simp [normAux] at hi
      | cons b rest2 =>
          cases i with
          | zero =>
              simp only [normAux, List.getD_cons_succ, List.getD_cons_zero]
          | succ j =>
              simp only [normAux, List.getD_cons_succ]
              apply ih
              simp only [normAux, List.length_cons] at hi ⊢
              omega

/-- The accumulated length always equals the sum of the pushed arc lengths. -/
theorem buildStep_acc_inv (gp gt : ℝ → Vec3) (pts : List TrackPoint)
    (loopSegs : List LoopSegment) (isLooped : Bool) (b : BuildState) (i : ℕ)
    (h : b.acc = (b.secs.map TrackSection.arcLength).sum) :
    (buildStep gp gt pts loopSegs isLooped b i).acc
      = ((buildStep gp gt pts loopSegs isLooped b i).secs.map
          TrackSection.arcLength).sum := by
  rw [buildStep]
  rcases loopLookup loopSegs (pts.getD i ⟨"", Vec3.zero, 0⟩).id with _ | seg
  · simp only []
    split
    · exact h
    · simp [h]
  · simp only []
    split
    · simp [h]
    · simp [h]
      ring

theorem foldl_buildStep_acc_inv (gp gt : ℝ → Vec3) (pts : List TrackPoint)
    (loopSegs : List LoopSegment) (isLooped : Bool) (l : List ℕ)
    (b : BuildState) (h : b.acc = (b.secs.map TrackSection.arcLength).sum) :
    (l.foldl (buildStep gp gt pts loopSegs isLooped) b).acc
      = ((l.foldl (buildStep gp gt pts loopSegs isLooped) b).secs.map
          TrackSection.arcLength).sum := by
  induction l generalizing b with
  | nil => exact h
  | cons x xs ih =>
      exact ih _ (buildStep_acc_inv gp gt pts loopSegs isLooped b x h)

theorem buildRawSections_acc (gp gt : ℝ → Vec3) (pts : List TrackPoint)
    (loopSegs : List LoopSegment) (isLooped : Bool) :
    (buildRawSections gp gt pts loopSegs isLooped).acc
      = ((buildRawSections gp gt pts loopSegs isLooped).secs.map
          TrackSection.arcLength).sum := by
  rw [buildRawSections]
  exact foldl_buildStep_acc_inv gp gt pts loopSegs isLooped _ _ rfl

/-- A build step never discards sections. -/
theorem buildStep_secs_ne_nil (gp gt : ℝ → Vec3) (pts : List TrackPoint)
    (loopSegs : List LoopSegment) (isLooped : Bool) (b : BuildState) (i : ℕ)
    (h : b.secs ≠ []) :
    (buildStep gp gt pts loopSegs isLooped b i).secs ≠ [] := by
  rw [buildStep]
  rcases loopLookup loopSegs (pts.getD i ⟨"", Vec3.zero, 0⟩).id with _ | seg
  · simp only []
    split
    · exact h
    · simp
  · simp only []
    split
    · simp
    · simp

theorem foldl_buildStep_secs_ne_nil (gp gt : ℝ → Vec3) (pts : List TrackPoint)
    (loopSegs : List LoopSegment) (isLooped : Bool) (l : List ℕ)
    (b : BuildState) (h : b.secs ≠ []) :
    (l.foldl (buildStep gp gt pts loopSegs isLooped) b).secs ≠ [] := by
  induction l generalizing b with
  | nil => exact h
  | cons x xs ih =>
      exact ih _ (buildStep_secs_ne_nil gp gt pts loopSegs isLooped b x h)

/-- With at least two points, the very first iteration pushes a spline
section (index 0 is never the last point of an open path). -/
theorem buildStep_zero_secs_ne_nil (gp gt : ℝ → Vec3) (pts : List TrackPoint)
    (loopSegs : List LoopSegment) (isLooped : Bool) (b : BuildState)
    (h2 : 2 ≤ pts.length) :
    (buildStep gp gt pts loopSegs isLooped b 0).secs ≠ [] := by
  rw [buildStep]
  have hcond : ¬(pts.length - 1 ≤ 0 ∧ isLooped = false) := by
    intro hc
    omega
  rcases loopLookup loopSegs (pts.getD 0 ⟨"", Vec3.zero, 0⟩).id with _ | seg
  · simp only []
    rw [if_neg hcond]
    simp
  · simp only []
    rw [if_neg hcond]
    simp

theorem buildRawSections_secs_ne_nil (gp gt : ℝ → Vec3) (pts : List TrackPoint)
    (loopSegs : List LoopSegment) (isLooped : Bool) (h2 : 2 ≤ pts.length) :
    (buildRawSections gp gt pts loopSegs isLooped).secs ≠ [] := by
  rw [buildRawSections]
  obtain ⟨k, hk⟩ : ∃ k, pts.length = k + 2 := ⟨pts.length - 2, by omega⟩
  rw [hk]
  rw [show k + 2 = (k + 1) + 1 by omega, List.range_succ_eq_map]
  rw [List.foldl_cons]
  apply foldl_buildStep_secs_ne_nil
  exact buildStep_zero_secs_ne_nil gp gt pts loopSegs isLooped _ h2

/-- C3 (amended: the normalization divisor must be positive, i.e. the control
points are not all coincident): for every section table built from at least 2
track points, the first section's startProgress is 0, the last section's
endProgress is 1, each section's startProgress equals the preceding one's
endProgress, and the arcLength fields sum exactly to the accumulated total
used as the divisor. -/
theorem sections_partition (gp gt : ℝ → Vec3) (pts : List TrackPoint)
    (loopSegs : List LoopSegment) (isLooped : Bool) (h2 : 2 ≤ pts.length)
    (hpos : 0 < (buildRawSections gp gt pts loopSegs isLooped).acc) :
    ((buildSections gp gt pts loopSegs isLooped).head?.map
        TrackSection.startProgress = some 0) ∧
    ((buildSections gp gt pts loopSegs isLooped).getLast?.map
        TrackSection.endProgress = some 1) ∧
    (∀ i, i + 1 < (buildSections gp gt pts loopSegs isLooped).length →
      ((buildSections gp gt pts loopSegs isLooped).getD (i + 1)
          dummySection).startProgress
        = ((buildSections gp gt pts loopSegs isLooped).getD i
            dummySection).endProgress) ∧
    (((buildSections gp gt pts loopSegs isLooped).map
        TrackSection.arcLength).sum
      = (buildRawSections gp gt pts loopSegs isLooped).acc) := by
  have hne := buildRawSections_secs_ne_nil gp gt pts loopSegs isLooped h2
  have hsum := buildRawSections_acc gp gt pts loopSegs isLooped
  refine ⟨?_, ?_, ?_, ?_⟩
  · rw [buildSections, normAux_head?_start _ _ _ hne, zero_div]
  · rw [buildSections, normAux_getLast?_end _ _ _ hne, zero_add, ← hsum,
      div_self (ne_of_gt hpos)]
  · exact normAux_chain _ _ _
  · rw [buildSections, normAux_map_arcLength, ← hsum]

theorem Vec3.normalize_zero : Vec3.zero.normalize = Vec3.zero := by
  simp [Vec3.normalize, Vec3.zero, Vec3.length, Vec3.lengthSq, Vec3.smul]

theorem catmullCalc_const (c tension w : ℝ) :
    catmullCalc c c c c tension w = c := by
  simp only [catmullCalc]
  ring

theorem catmullRom_pair_const (v : Vec3) (tension t : ℝ) :
    catmullRomPoint [v, v] false tension t = v := by
  have hidx : ∀ i : ℤ, [v, v].getD (Int.toNat (i % 2)) Vec3.zero = v := by
    intro i
    have h : i % 2 = 0 ∨ i % 2 = 1 := by omega
    rcases h with h | h <;> simp [h]
  simp only [catmullRomPoint, List.length_cons, List.length_nil]
  norm_num
  split_ifs <;>
    simp_all [hidx, Vec3.sub, Vec3.add, catmullCalc_const]

theorem catmullRomTangent_pair_const (v : Vec3) (tension t : ℝ) :
    catmullRomTangent [v, v] false tension t = Vec3.zero := by
  simp only [catmullRomTangent, catmullRom_pair_const]
  have hsub : v.sub v = Vec3.zero := by
    simp [Vec3.sub, Vec3.zero]
  rw [hsub, Vec3.normalize_zero]

theorem Vec3.normalize_e1 : (⟨1, 0, 0⟩ : Vec3).normalize = ⟨1, 0, 0⟩ :=
  Vec3.normalize_of_length_one (by simp [Vec3.length, Vec3.lengthSq])

theorem Vec3.normalize_e2 : (⟨0, 1, 0⟩ : Vec3).normalize = ⟨0, 1, 0⟩ :=
  Vec3.normalize_of_length_one (by simp [Vec3.length, Vec3.lengthSq])

theorem initialPrevUp_zero : initialPrevUp Vec3.zero = ⟨0, 1, 0⟩ := by
  rw [initialPrevUp]
  norm_num [Vec3.dot, Vec3.smul, Vec3.sub, Vec3.zero, Vec3.length, Vec3.lengthSq]
  exact Vec3.normalize_e2

theorem initialPrevUp_e1 : initialPrevUp ⟨1, 0, 0⟩ = ⟨0, 1, 0⟩ := by
  rw [initialPrevUp]
  norm_num [Vec3.dot, Vec3.smul, Vec3.sub, Vec3.length, Vec3.lengthSq]
  exact Vec3.normalize_e2

theorem estimateSegmentLength_of_const (gp : ℝ → Vec3) (c : Vec3)
    (h : ∀ t, gp t = c) (a b : ℝ) : estimateSegmentLength gp a b = 0 := by
  simp [estimateSegmentLength, h, Vec3.distanceTo, Vec3.sub, Vec3.length,
    Vec3.lengthSq]

theorem transportFrame_zero :
    transportFrame Vec3.zero ⟨0, 1, 0⟩ Vec3.zero = ⟨0, 1, 0⟩ := by
  rw [transportFrame]
  norm_num [Vec3.dot, Vec3.cross, Vec3.smul, Vec3.sub, Vec3.zero, Vec3.length,
    Vec3.lengthSq]
  exact Vec3.normalize_e2

theorem transportFrame_e1 :
    transportFrame ⟨1, 0, 0⟩ ⟨0, 1, 0⟩ ⟨1, 0, 0⟩ = ⟨0, 1, 0⟩ := by
  rw [transportFrame]
  norm_num [Vec3.dot, Vec3.cross, Vec3.smul, Vec3.sub, Vec3.length,
    Vec3.lengthSq]
  exact Vec3.normalize_e2

/-- Iteration 1 on the two-point open path only hits the
`i >= numPoints - 1 && !isLooped` continue. -/
theorem buildStep_twoPoint_skip (gp gt : ℝ → Vec3) (b : BuildState) :
    buildStep gp gt degeneratePts [] false b 1 = b := by
  rw [buildStep]
  simp only [loopLookup, List.reverse_nil, List.find?_nil]
  rw [if_pos (by norm_num [degeneratePts])]

/-- Iteration 0 over the degenerate (all-coincident) curve: a zero-length
spline section. -/
theorem buildStep_degenerate_zero (gp gt : ℝ → Vec3)
    (hgp : ∀ t, gp t = (⟨0, 0, 0⟩ : Vec3)) (hgt : ∀ t, gt t = Vec3.zero) :
    buildStep gp gt degeneratePts [] false ⟨[], 0, Vec3.zero, ⟨0, 1, 0⟩⟩ 0
      = ⟨[⟨SectionType.spline, 0, 0, 0, none, some 0, some 1⟩], 0,
         Vec3.zero, ⟨0, 1, 0⟩⟩ := by
  rw [buildStep]
  simp only [loopLookup, List.reverse_nil, List.find?_nil]
  rw [if_neg (by norm_num [degeneratePts])]
  rw [estimateSegmentLength_of_const gp _ hgp, hgt, Vec3.normalize_zero,
    transportFrame_zero]
  norm_num [degeneratePts]

/-- The degenerate two-point table after normalization: a single section with
both progress bounds 0 (the JS build divides 0 by 0 here). -/
theorem degenerate_sections :
    buildSectionsFromPoints degeneratePts [] false
      = [⟨SectionType.spline, 0, 0, 0, none, some 0, some 1⟩] := by
  have hmap : degeneratePts.map TrackPoint.position
      = [(⟨0, 0, 0⟩ : Vec3), ⟨0, 0, 0⟩] := rfl
  have hgp : ∀ t, catmullRomPoint (degeneratePts.map TrackPoint.position)
      false 0.5 t = (⟨0, 0, 0⟩ : Vec3) := by
    intro t
    rw [hmap]
    exact catmullRom_pair_const _ _ _
  have hgt : ∀ t, catmullRomTangent (degeneratePts.map TrackPoint.position)
      false 0.5 t = Vec3.zero := by
    intro t
    rw [hmap]
    exact catmullRomTangent_pair_const _ _ _
  rw [buildSectionsFromPoints, if_neg (by norm_num [degeneratePts])]
  rw [buildSections, buildRawSections, hgt 0, Vec3.normalize_zero,
    initialPrevUp_zero]
  have hrange : List.range degeneratePts.length = [0, 1] := by decide
  rw [hrange]
  simp only [List.foldl_cons, List.foldl_nil]
  rw [buildStep_degenerate_zero _ _ hgp hgt, buildStep_twoPoint_skip]
  simp [normAux]

/-- C3 counterexample: on the table built from two coincident control points
(at least 2 track points, as the claim requires) the last section's
endProgress is 0, not 1 — the normalization divisor is 0. -/
theorem sections_partition_counterexample :
    2 ≤ degeneratePts.length ∧
    ¬ ((buildSectionsFromPoints degeneratePts [] false).getLast?.map
        TrackSection.endProgress = some 1) := by
  refine ⟨by norm_num [degeneratePts], ?_⟩
  rw [degenerate_sections]
  intro hcontra
  simp at hcontra

/-- Evaluating the chord sum along the straight witness curve. -/
theorem estimateSegmentLength_wCurve :
    estimateSegmentLength wCurvePoint 0 1 = 10 := by
  have hterm : ∀ s : ℕ,
      (wCurvePoint ((0 : ℝ) + (s : ℝ) / 10 * (1 - 0))).distanceTo
        (wCurvePoint ((0 : ℝ) + ((s : ℝ) + 1) / 10 * (1 - 0))) = 1 := by
    intro s
    simp only [wCurvePoint, Vec3.distanceTo, Vec3.sub, Vec3.length, Vec3.lengthSq]
    have h1 : (10 * ((0 : ℝ) + (s : ℝ) / 10 * (1 - 0))
          - 10 * ((0 : ℝ) + ((s : ℝ) + 1) / 10 * (1 - 0)))
        * (10 * ((0 : ℝ) + (s : ℝ) / 10 * (1 - 0))
          - 10 * ((0 : ℝ) + ((s : ℝ) + 1) / 10 * (1 - 0)))
        + (0 - 0) * (0 - 0) + (0 - 0) * (0 - 0) = 1 := by ring
    rw [h1, Real.sqrt_one]
  rw [estimateSegmentLength]
  rw [Finset.sum_congr rfl fun s _ => hterm s]
  simp

/-- Iteration 0 along the straight witness curve: a length-10 spline
section. -/
theorem buildStep_wCurve_zero :
    buildStep wCurvePoint wCurveTangent degeneratePts [] false
        ⟨[], 0, ⟨1, 0, 0⟩, ⟨0, 1, 0⟩⟩ 0
      = ⟨[⟨SectionType.spline, 0, 0, 10, none, some 0, some 1⟩], 10,
         ⟨1, 0, 0⟩, ⟨0, 1, 0⟩⟩ := by
  rw [buildStep]
  simp only [loopLookup, List.reverse_nil, List.find?_nil]
  rw [if_neg (by norm_num [degeneratePts])]
  norm_num [degeneratePts]
  refine ⟨estimateSegmentLength_wCurve, ?_, ?_⟩
  · rw [show wCurveTangent 1 = ⟨1, 0, 0⟩ from rfl, Vec3.normalize_e1]
  · rw [show wCurveTangent 1 = ⟨1, 0, 0⟩ from rfl, Vec3.normalize_e1]
    exact transportFrame_e1

/-- The raw build state along the straight witness curve. -/
theorem buildRawSections_wCurve :
    buildRawSections wCurvePoint wCurveTangent degeneratePts [] false
      = ⟨[⟨SectionType.spline, 0, 0, 10, none, some 0, some 1⟩], 10,
         ⟨1, 0, 0⟩, ⟨0, 1, 0⟩⟩ := by
  rw [buildRawSections]
  rw [show (wCurveTangent 0).normalize = ⟨1, 0, 0⟩ from Vec3.normalize_e1,
    initialPrevUp_e1]
  have hrange : List.range degeneratePts.length = [0, 1] := by decide
  rw [hrange]
  simp only [List.foldl_cons, List.foldl_nil]
  rw [buildStep_wCurve_zero, buildStep_twoPoint_skip]

/-- Witness for C3 (amended) on a two-point straight path of length 10. -/
theorem sections_partition_witness :
    (2 ≤ degeneratePts.length ∧
      0 < (buildRawSections wCurvePoint wCurveTangent degeneratePts
            [] false).acc) ∧
    (((buildSections wCurvePoint wCurveTangent degeneratePts [] false).head?.map
        TrackSection.startProgress = some 0) ∧
      ((buildSections wCurvePoint wCurveTangent degeneratePts [] false).getLast?.map
        TrackSection.endProgress = some 1) ∧
      (∀ i, i + 1 < (buildSections wCurvePoint wCurveTangent degeneratePts
            [] false).length →
        ((buildSections wCurvePoint wCurveTangent degeneratePts [] false).getD
            (i + 1) dummySection).startProgress
          = ((buildSections wCurvePoint wCurveTangent degeneratePts
              [] false).getD i dummySection).endProgress) ∧
      (((buildSections wCurvePoint wCurveTangent degeneratePts [] false).map
          TrackSection.arcLength).sum
        = (buildRawSections wCurvePoint wCurveTangent degeneratePts
            [] false).acc)) := by
  have h2 : 2 ≤ degeneratePts.length := by norm_num [degeneratePts]
  have hpos : 0 < (buildRawSections wCurvePoint wCurveTangent degeneratePts
      [] false).acc := by
    rw [buildRawSections_wCurve]
    norm_num
  exact ⟨⟨h2, hpos⟩,
    sections_partition wCurvePoint wCurveTangent degeneratePts [] false h2 hpos⟩

end
